import Mathlib

/-!
Verification of the tornado-based tarantool client transport
(tarantool/tornado.py): connection lifecycle, correlation-id allocation,
request dispatch with bounded retry, the reader frame loop, and the schema
cache lookup. Collaborator components (msgpack length codec, Response parser)
enter as parameters or as definitions modelled from their documented contract.
-/

namespace Aiotarantool

/-- retry budget of the dispatch loop, RETRY_MAX_ATTEMPTS from tarantool.const. -/
def RETRY_MAX_ATTEMPTS : Nat := 10

/-- fields of a decoded Response used by the core: correlation id (sync),
return code, return message, completion status (1 means retry-needed). -/
structure Resp where
  sync : Nat
  return_code : Nat
  return_message : String
  completion_status : Nat
deriving DecidableEq, Repr

/-- the waiter table: a finite map from correlation id to a pending slot token.
Slot tokens stand for the distinct Future objects; Python dict semantics
(assignment replaces the binding for a key, del removes it). Entry order is
irrelevant to every property stated below. -/
abbrev Tbl := List (Nat × Nat)

/-- dict lookup by correlation id. -/
def tlookup (s : Nat) : Tbl → Option Nat
  | [] => none
  | p :: rest => if p.1 = s then some p.2 else tlookup s rest

/-- dict key removal (del t[s], also used to implement replacing assignment). -/
def terase (s : Nat) : Tbl → Tbl
  | [] => []
  | p :: rest => if p.1 = s then terase s rest else p :: terase s rest

/-- dict assignment t[s] = v: replaces any existing binding of s. -/
def tinsert (s v : Nat) (t : Tbl) : Tbl :=
  (s, v) :: terase s t

/-- the multiset of slot tokens held in the table. -/
def tvals (t : Tbl) : List Nat := t.map (fun p => p.2)

/-- connection-local state touched by the verified operations: the connected
flag, the correlation-id counter req_num, the waiter table, and a fresh-token
supply naming the distinct Future objects created for pending slots. -/
structure ConnState where
  connected : Bool
  req_num : Nat
  waiters : Tbl
  next_token : Nat
deriving Repr

/-- shallow embedding of Connection.generate_sync (tornado.py lines 185-191):
increment req_num, reset it to zero when it exceeds 10000000, register a fresh
Future under the resulting value in the waiter table, and return that value. -/
def generate_sync (st : ConnState) : ConnState × Nat :=
  let m := st.req_num + 1
  let m := if m > 10000000 then 0 else m
  ({ st with req_num := m
           , waiters := tinsert m st.next_token st.waiters
           , next_token := st.next_token + 1 }, m)

/-- observable dispatch events: registering a waiter slot for a sync id,
appending the encoded request bytes to the outbound write buffer,
re-registering a fresh slot on retry, and the retry warning. -/
inductive DEv
  | register (sync : Nat)
  | enqueue (sync : Nat)
  | reregister (sync : Nat)
  | retryWarn (msg : String)
deriving DecidableEq, Repr

/-- outcome of a dispatch call. -/
inductive SendResult
  | ok (r : Resp)
  | dbError (code : Nat) (msg : String)
  | pending
deriving DecidableEq, Repr

/-- shallow embedding of the retry loop of Connection._send_request
(tornado.py lines 292-308), one recursive step per loop iteration: append
bytes(request) to the write buffer and signal the writer (event enqueue), then
await the waiter. The resolutions the waiter receives are supplied by a
script, one response per resolution, abstracting the reader loop; an empty
script means the waiter never resolves and the caller stays suspended
(pending). A final response (completion_status different from 1) is returned
at once; a retry response re-registers a fresh slot under the same sync (event
reregister) and emits the retry warning; an exhausted budget raises
DatabaseError carrying the last response fields (last is none only when the
budget is zero, unreachable from send_request since RETRY_MAX_ATTEMPTS = 10). -/
def sendAttempts (sync : Nat) (last : Option Resp) :
    Nat → List Resp → List DEv × SendResult
  | 0, _ =>
      ([], match last with
           | some r => SendResult.dbError r.return_code r.return_message
           | none => SendResult.pending)
  | _ + 1, [] => ([DEv.enqueue sync], SendResult.pending)
  | n + 1, r :: rest =>
      if r.completion_status ≠ 1 then
        ([DEv.enqueue sync], SendResult.ok r)
      else
        let next := sendAttempts sync (some r) n rest
        (DEv.enqueue sync :: DEv.reregister sync :: DEv.retryWarn r.return_message :: next.1,
         next.2)

/-- Connection._send_request on an already-connected instance: run the attempt
loop with the fixed budget; sync is request.sync, allocated at request
construction time. -/
def send_request (sync : Nat) (script : List Resp) : List DEv × SendResult :=
  sendAttempts sync none RETRY_MAX_ATTEMPTS script

/-- dispatch of one logical operation: constructing the Request calls
generate_sync (registering the waiter, event register), then _send_request
appends the encoded bytes and awaits. Returns the post-allocation state, the
allocated sync, the event trace in program order, and the outcome. -/
def dispatch (st : ConnState) (script : List Resp) :
    ConnState × Nat × List DEv × SendResult :=
  let g := generate_sync st
  let s := send_request g.2 script
  (g.1, g.2, DEv.register g.2 :: s.1, s.2)

/-- number of write-buffer appends of the request bytes in a trace. -/
def countEnqueue (evs : List DEv) : Nat :=
  evs.countP (fun e => match e with | DEv.enqueue _ => true | _ => false)

/-- number of retry re-registrations in a trace. -/
def countReregister (evs : List DEv) : Nat :=
  evs.countP (fun e => match e with | DEv.reregister _ => true | _ => false)

/-- reader events: a frame whose sync has no waiter is logged and discarded; a
frame with a matching waiter resolves the slot with a DatabaseError outcome
(nonzero return code) or with the success payload (zero return code). -/
inductive RdEv
  | discarded (sync : Nat)
  | resolvedErr (sync slot code : Nat) (msg : String)
  | resolvedOk (sync slot : Nat) (r : Resp)
deriving DecidableEq, Repr

/-- outcome of one run of the reader frame loop: the final waiter table, the
resolution and discard events in order, the frames handed to the Response
decoder (declared length paired with the payload slice), and the unconsumed
buffer suffix kept for the next socket read. -/
structure RdOut where
  tbl : Tbl
  events : List RdEv
  handed : List (Nat × List Nat)
  leftover : List Nat
deriving Repr

/-- shallow embedding of the frame-extraction loop of
Connection._response_reader (tornado.py lines 250-280) on one buffer state:
while at least 5 bytes remain unconsumed, unpack the 5-byte length prefix; if
fewer than 5 + length bytes remain, stop consuming and keep the suffix for the
next read; otherwise slice out the payload, hand it to the Response decoder,
and resolve or discard by the decoded sync, deleting a resolved entry before
any later frame is processed. unpack and decode are the collaborator msgpack
length codec and Response parser, passed as parameters since none of the
stated properties depends on their internals. -/
def readerLoop (unpack : List Nat → Nat) (decode : List Nat → Resp)
    (tbl : Tbl) (buf : List Nat) : RdOut :=
  if _h5 : 5 ≤ buf.length then
    let length := unpack (buf.take 5)
    if buf.length < 5 + length then
      { tbl := tbl, events := [], handed := [], leftover := buf }
    else
      let body := (buf.drop 5).take length
      let r := decode body
      let rest := buf.drop (5 + length)
      match tlookup r.sync tbl with
      | none =>
          let out := readerLoop unpack decode tbl rest
          { out with events := RdEv.discarded r.sync :: out.events
                   , handed := (length, body) :: out.handed }
      | some slot =>
          let ev := if r.return_code ≠ 0
                    then RdEv.resolvedErr r.sync slot r.return_code r.return_message
                    else RdEv.resolvedOk r.sync slot r
          let out := readerLoop unpack decode (terase r.sync tbl) rest
          { out with events := ev :: out.events
                   , handed := (length, body) :: out.handed }
  else
    { tbl := tbl, events := [], handed := [], leftover := buf }
termination_by buf.length
decreasing_by
  all_goals simp [List.length_drop]; omega

/-- error values surfaced by the core. -/
inductive PyErr
  | networkError (msg : String)
  | databaseError (code : Nat) (msg : String)
deriving DecidableEq, Repr

/-- close-time resolution of a pending waiter slot. -/
inductive CloseEv
  | cancelled (slot : Nat)
  | excepted (slot : Nat) (e : PyErr)
deriving DecidableEq, Repr

/-- shallow embedding of Connection._do_close (tornado.py lines 197-219): a
no-op when already disconnected; otherwise mark disconnected, close the
transport and cancel both loop tasks (modelled only through the flag), resolve
every pending waiter (Future.cancel on a voluntary close, exc = none, or
set_exception exc on a fault-induced close) and empty the waiter table.
Returns the post state and one resolution event per table entry, in table
iteration order. -/
def _do_close (exc : Option PyErr) (st : ConnState) : ConnState × List CloseEv :=
  if st.connected = false then (st, [])
  else
    ({ st with connected := false, waiters := [] },
     st.waiters.map (fun p =>
       match exc with
       | none => CloseEv.cancelled p.2
       | some e => CloseEv.excepted p.2 e))

/-- key used to look up a space: Python callers pass either a name string or a
numeric id, and the isinstance check in the source selects the system index. -/
inductive SpaceKey
  | byName (s : String)
  | byId (n : Nat)
deriving DecidableEq, Repr

/-- system-space index ids from tarantool.const. -/
def INDEX_SPACE_PRIMARY : Nat := 0

/-- system-space name index id from tarantool.const. -/
def INDEX_SPACE_NAME : Nat := 2

/-- scalar cell of a metadata row. -/
inductive PyScalar
  | pint (n : Nat)
  | pstr (s : String)
deriving DecidableEq, Repr

/-- one metadata row, as the select returns it. -/
abbrev Row := List PyScalar

/-- Python values taking part in the message concatenation of the
more-than-one-row branch of Schema.get_space. -/
inductive PyV
  | pstr (s : String)
  | plist (rows : List Row)
deriving DecidableEq, Repr

/-- exceptions a schema lookup can raise. -/
inductive PyExc
  | schemaError (msg : String)
  | typeError
deriving DecidableEq, Repr

/-- Python binary + on the values above: concatenation of two strings; adding
a list to a string raises TypeError. -/
def pyAdd : PyV → PyV → Except PyExc PyV
  | PyV.pstr a, PyV.pstr b => Except.ok (PyV.pstr (a ++ b))
  | _, _ => Except.error PyExc.typeError

/-- Modelled from the spec: the Schema Space descriptor the collaborator
tarantool.schema.SchemaSpace builds from the single metadata row (numeric id,
name, empty index registry). -/
structure SchemaSpaceV where
  sid : Nat
  name : String
  indexes : List (Nat × Nat)
deriving DecidableEq, Repr

/-- the schema cache dict: entries keyed by space name or numeric id. -/
abbrev SchemaCache := List (SpaceKey × SchemaSpaceV)

/-- Modelled from the spec: constructing a SchemaSpace from its row caches the
descriptor (id from cell 0, name from cell 2, empty index registry) in the
schema dict under both its id and its name, and hands it back. -/
def mkSchemaSpace (row : Row) (cache : SchemaCache) : SchemaSpaceV × SchemaCache :=
  let sid := match row.headD (PyScalar.pint 0) with
    | PyScalar.pint n => n
    | _ => 0
  let name := match row.getD 2 (PyScalar.pstr "") with
    | PyScalar.pstr s => s
    | _ => ""
  let sp : SchemaSpaceV := { sid := sid, name := name, indexes := [] }
  (sp, (SpaceKey.byId sid, sp) :: (SpaceKey.byName name, sp) :: cache)

/-- shallow embedding of the cache-miss path of Schema.get_space (tornado.py
lines 74-92), after the under-lock cache re-check, applied to the rows the
metadata select returned: more than one row reaches the raise whose message is
built by string + list concatenation (so Python raises TypeError there); zero
rows, or a single empty row, raise the space-not-found SchemaError; otherwise
the SchemaSpace is constructed from the single row, cached, and returned. -/
def get_space_miss (space : SpaceKey) (cache : SchemaCache) (rows : List Row) :
    Except PyExc (SchemaSpaceV × SchemaCache) :=
  let _index := match space with
    | SpaceKey.byName _ => INDEX_SPACE_NAME
    | SpaceKey.byId _ => INDEX_SPACE_PRIMARY
  if rows.length > 1 then
    match pyAdd (PyV.pstr "Some strange output from server: \n") (PyV.plist rows) with
    | Except.error e => Except.error e
    | Except.ok (PyV.pstr m) => Except.error (PyExc.schemaError m)
    | Except.ok _ => Except.error PyExc.typeError
  else if rows.length = 0 ∨ (rows.headD []).length = 0 then
    let temp_name := match space with
      | SpaceKey.byName _ => "name"
      | SpaceKey.byId _ => "id"
    Except.error (PyExc.schemaError ("There is no space with " ++ temp_name))
  else
    Except.ok (mkSchemaSpace (rows.headD []) cache)

/-- cache lookup used by the hit path of Schema.get_space. -/
def clookup (k : SpaceKey) : SchemaCache → Option SchemaSpaceV
  | [] => none
  | p :: rest => if p.1 = k then some p.2 else clookup k rest

/-- Schema.get_space (tornado.py lines 64-92): return the cached entry when
present, otherwise run the miss path on the selected rows. -/
def get_space (space : SpaceKey) (cache : SchemaCache) (rows : List Row) :
    Except PyExc (SchemaSpaceV × SchemaCache) :=
  match clookup space cache with
  | some sp => Except.ok (sp, cache)
  | none => get_space_miss space cache rows

/-- number of resolution events for correlation id s in a reader event list. -/
def countResolutions (s : Nat) (evs : List RdEv) : Nat :=
  evs.countP (fun e => match e with
    | RdEv.resolvedErr s2 _ _ _ => s2 == s
    | RdEv.resolvedOk s2 _ _ => s2 == s
    | RdEv.discarded _ => false)

/-- the slot token a reader event resolves, if any. -/
def slotOf : RdEv → Option Nat
  | RdEv.discarded _ => none
  | RdEv.resolvedErr _ slot _ _ => some slot
  | RdEv.resolvedOk _ slot _ => some slot

/-- number of close events resolving slot token w. -/
def countCloseFor (w : Nat) (evs : List CloseEv) : Nat :=
  evs.countP (fun e => match e with
    | CloseEv.cancelled w2 => w2 == w
    | CloseEv.excepted w2 _ => w2 == w)

/-- concrete 5-byte length codec (msgpack uint32: tag byte then the big-endian
length) used to instantiate the reader theorems on concrete buffers. -/
def unpackU32 (l : List Nat) : Nat :=
  l.getD 1 0 * 16777216 + l.getD 2 0 * 65536 + l.getD 3 0 * 256 + l.getD 4 0

/-- concrete Response parser used to instantiate the reader theorems: sync from
byte 0, return code from byte 1. -/
def decodeSimple (body : List Nat) : Resp :=
  { sync := body.headD 0
  , return_code := body.getD 1 0
  , return_message := "err"
  , completion_status := 0 }

/-- concrete connected state with an empty waiter table. -/
def st0 : ConnState :=
  { connected := true, req_num := 0, waiters := [], next_token := 0 }

/-- concrete retry-needed response for sync 1. -/
def respRetry : Resp :=
  { sync := 1, return_code := 5, return_message := "try again", completion_status := 1 }

/-- concrete final response for sync 1. -/
def respFinal : Resp :=
  { sync := 1, return_code := 0, return_message := "done", completion_status := 0 }

/-- concrete state whose counter sits at the ceiling while the wrapped-to id 0
still holds a pending slot (token 5). -/
def stWrap : ConnState :=
  { connected := true, req_num := 10000000, waiters := [(0, 5)], next_token := 6 }

/-- concrete connected state with two pending slots. -/
def stClose : ConnState :=
  { connected := true, req_num := 2, waiters := [(1, 7), (2, 8)], next_token := 9 }

/-- concrete metadata row of a space named users with id 512. -/
def rowUsers : Row := [PyScalar.pint 512, PyScalar.pint 0, PyScalar.pstr "users"]

/-- Claim C6: the correlation-id counter increments by one on each dispatched
request and resets to zero once it exceeds 10,000,000: the generated id is
req_num + 1 when that is at most 10,000,000 and 0 otherwise, hence every
generated id lies in 0..10,000,000, and the counter is left equal to the
generated id. -/
theorem generate_sync_counter (st : ConnState) :
    (generate_sync st).2
      = (if st.req_num + 1 ≤ 10000000 then st.req_num + 1 else 0)
    ∧ (generate_sync st).2 ≤ 10000000
    ∧ (generate_sync st).1.req_num = (generate_sync st).2 := by
  refine ⟨?_, ?_, rfl⟩ <;>
    unfold generate_sync <;> dsimp only <;> split_ifs <;> omega

/-- a successful lookup exhibits a table entry. -/
theorem tlookup_mem {s w : Nat} {t : Tbl} (h : tlookup s t = some w) : (s, w) ∈ t := by
  induction t with
  | nil => simp [tlookup] at h
  | cons p rest ih =>
      rw [tlookup] at h
      split at h
      · rename_i hp
        injection h with h2
        rw [← hp, ← h2]
        exact List.mem_cons_self _ _
      · exact List.mem_cons_of_mem _ (ih h)

/-- a successful lookup puts its slot among the table values. -/
theorem tlookup_mem_tvals {s w : Nat} {t : Tbl} (h : tlookup s t = some w) :
    w ∈ tvals t :=
  List.mem_map.2 ⟨(s, w), tlookup_mem h, rfl⟩

/-- erasing a key makes its lookup fail. -/
theorem tlookup_terase_self (s : Nat) (t : Tbl) : tlookup s (terase s t) = none := by
  induction t with
  | nil => rfl
  | cons p rest ih =>
      by_cases hp : p.1 = s
      · simp [terase, hp, ih]
      · simp [terase, hp, tlookup, ih]

/-- erasing any key preserves a failing lookup. -/
theorem tlookup_terase_none {s : Nat} (s2 : Nat) {t : Tbl} (h : tlookup s t = none) :
    tlookup s (terase s2 t) = none := by
  induction t with
  | nil => rfl
  | cons p rest ih =>
      rw [tlookup] at h
      split at h
      · exact absurd h (by simp)
      · rename_i hp
        by_cases hq : p.1 = s2
        · simp [terase, hq, ih h]
        · simp [terase, hq, tlookup, hp, ih h]

/-- erasing a key only removes slots from the value multiset. -/
theorem tvals_terase_subset {w : Nat} (s : Nat) {t : Tbl}
    (h : w ∈ tvals (terase s t)) : w ∈ tvals t := by
  induction t with
  | nil => simpa [terase] using h
  | cons p rest ih =>
      by_cases hp : p.1 = s
      · rw [terase, if_pos hp] at h
        exact List.mem_cons_of_mem _ (ih h)
      · rw [terase, if_neg hp] at h
        rcases List.mem_cons.1 h with h1 | h1
        · exact List.mem_cons.2 (Or.inl h1)
        · exact List.mem_cons_of_mem _ (ih h1)

/-- a replacing assignment makes its key look up the new slot. -/
theorem tlookup_tinsert_self (s v : Nat) (t : Tbl) :
    tlookup s (tinsert s v t) = some v := by
  simp [tinsert, tlookup]

/-- with pairwise-distinct slot tokens, erasing the key bound to w removes the
token w from the table entirely. -/
theorem not_mem_tvals_terase {m w : Nat} {t : Tbl}
    (hlk : tlookup m t = some w) (hnd : (tvals t).Nodup) :
    w ∉ tvals (terase m t) := by
  induction t with
  | nil => simp [tlookup] at hlk
  | cons p rest ih =>
      have hnd2 : p.2 ∉ tvals rest ∧ (tvals rest).Nodup := by
        simpa [tvals, List.nodup_cons] using hnd
      rw [tlookup] at hlk
      split at hlk
      · rename_i hp
        injection hlk with h2
        rw [terase, if_pos hp, ← h2]
        intro hmem
        exact hnd2.1 (tvals_terase_subset m hmem)
      · rename_i hp
        rw [terase, if_neg hp]
        have hwrest : w ∈ tvals rest := tlookup_mem_tvals hlk
        intro hmem
        rcases List.mem_cons.1 hmem with h1 | h1
        · rw [show w = p.2 from h1] at hwrest
          exact hnd2.1 hwrest
        · exact ih hlk hnd2.2 h1

/-- with fewer than 5 buffered bytes the reader keeps the buffer untouched. -/
theorem readerLoop_short (unpack : List Nat → Nat) (decode : List Nat → Resp)
    (tbl : Tbl) (buf : List Nat) (h : ¬ 5 ≤ buf.length) :
    readerLoop unpack decode tbl buf
      = { tbl := tbl, events := [], handed := [], leftover := buf } := by
  rw [readerLoop, dif_neg h]

/-- with a declared length larger than the buffered remainder the reader stops
consuming and keeps the buffer for the next read. -/
theorem readerLoop_wait (unpack : List Nat → Nat) (decode : List Nat → Resp)
    (tbl : Tbl) (buf : List Nat) (h5 : 5 ≤ buf.length)
    (hfit : buf.length < 5 + unpack (buf.take 5)) :
    readerLoop unpack decode tbl buf
      = { tbl := tbl, events := [], handed := [], leftover := buf } := by
  rw [readerLoop, dif_pos h5]
  simp only [if_pos hfit]

/-- a complete frame whose sync misses the waiter table is discarded and the
loop continues on the remaining bytes with the table unchanged. -/
theorem readerLoop_step_none (unpack : List Nat → Nat) (decode : List Nat → Resp)
    (tbl : Tbl) (buf : List Nat) (h5 : 5 ≤ buf.length)
    (hfit : ¬ buf.length < 5 + unpack (buf.take 5))
    (hmiss : tlookup (decode ((buf.drop 5).take (unpack (buf.take 5)))).sync tbl = none) :
    readerLoop unpack decode tbl buf
      = { readerLoop unpack decode tbl (buf.drop (5 + unpack (buf.take 5))) with
            events :=
              RdEv.discarded (decode ((buf.drop 5).take (unpack (buf.take 5)))).sync
                :: (readerLoop unpack decode tbl (buf.drop (5 + unpack (buf.take 5)))).events
          , handed :=
              (unpack (buf.take 5), (buf.drop 5).take (unpack (buf.take 5)))
                :: (readerLoop unpack decode tbl
                      (buf.drop (5 + unpack (buf.take 5)))).handed } := by
  rw [readerLoop, dif_pos h5]
  simp only [if_neg hfit, hmiss]

/-- a complete frame whose sync matches waiter slot w resolves it by return
code, deletes the entry, and the loop continues on the remaining bytes. -/
theorem readerLoop_step_some (unpack : List Nat → Nat) (decode : List Nat → Resp)
    (tbl : Tbl) (buf : List Nat) (w : Nat) (h5 : 5 ≤ buf.length)
    (hfit : ¬ buf.length < 5 + unpack (buf.take 5))
    (hhit : tlookup (decode ((buf.drop 5).take (unpack (buf.take 5)))).sync tbl = some w) :
    readerLoop unpack decode tbl buf
      = { readerLoop unpack decode
            (terase (decode ((buf.drop 5).take (unpack (buf.take 5)))).sync tbl)
            (buf.drop (5 + unpack (buf.take 5))) with
            events :=
              (if (decode ((buf.drop 5).take (unpack (buf.take 5)))).return_code ≠ 0
               then RdEv.resolvedErr
                      (decode ((buf.drop 5).take (unpack (buf.take 5)))).sync w
                      (decode ((buf.drop 5).take (unpack (buf.take 5)))).return_code
                      (decode ((buf.drop 5).take (unpack (buf.take 5)))).return_message
               else RdEv.resolvedOk
                      (decode ((buf.drop 5).take (unpack (buf.take 5)))).sync w
                      (decode ((buf.drop 5).take (unpack (buf.take 5)))))
                :: (readerLoop unpack decode
                      (terase (decode ((buf.drop 5).take (unpack (buf.take 5)))).sync tbl)
                      (buf.drop (5 + unpack (buf.take 5)))).events
          , handed :=
              (unpack (buf.take 5), (buf.drop 5).take (unpack (buf.take 5)))
                :: (readerLoop unpack decode
                      (terase (decode ((buf.drop 5).take (unpack (buf.take 5)))).sync tbl)
                      (buf.drop (5 + unpack (buf.take 5)))).handed } := by
  rw [readerLoop, dif_pos h5]
  simp only [if_neg hfit, hhit]

/-- every payload handed to the decoder has exactly its declared length. -/
theorem readerLoop_handed_full (unpack : List Nat → Nat) (decode : List Nat → Resp)
    (tbl : Tbl) (buf : List Nat) :
    ∀ q ∈ (readerLoop unpack decode tbl buf).handed, q.2.length = q.1 := by
  by_cases h5 : 5 ≤ buf.length
  · by_cases hfit : buf.length < 5 + unpack (buf.take 5)
    · rw [readerLoop_wait unpack decode tbl buf h5 hfit]
      simp
    · have hlen : ((buf.drop 5).take (unpack (buf.take 5))).length = unpack (buf.take 5) := by
        simp only [List.length_take, List.length_drop]
        omega
      cases hhit : tlookup (decode ((buf.drop 5).take (unpack (buf.take 5)))).sync tbl with
      | none =>
          rw [readerLoop_step_none unpack decode tbl buf h5 hfit hhit]
          intro q hq
          rcases List.mem_cons.1 hq with h1 | h1
          · rw [h1]
            exact hlen
          · exact readerLoop_handed_full unpack decode tbl
              (buf.drop (5 + unpack (buf.take 5))) q h1
      | some w =>
          rw [readerLoop_step_some unpack decode tbl buf w h5 hfit hhit]
          intro q hq
          rcases List.mem_cons.1 hq with h1 | h1
          · rw [h1]
            exact hlen
          · exact readerLoop_handed_full unpack decode
              (terase (decode ((buf.drop 5).take (unpack (buf.take 5)))).sync tbl)
              (buf.drop (5 + unpack (buf.take 5))) q h1
  · rw [readerLoop_short unpack decode tbl buf h5]
    simp
termination_by buf.length
decreasing_by
  all_goals simp only [List.length_drop]; omega

/-- a discarded frame contributes nothing to any resolution count. -/
theorem countRes_cons_discarded (s x : Nat) (evs : List RdEv) :
    countResolutions s (RdEv.discarded x :: evs) = countResolutions s evs := by
  simp [countResolutions, List.countP_cons]

/-- the resolution event of a matched frame counts for exactly its own id. -/
theorem countRes_cons_ite (s s2 w c : Nat) (m : String) (r : Resp) (evs : List RdEv) :
    countResolutions s
      ((if c ≠ 0 then RdEv.resolvedErr s2 w c m else RdEv.resolvedOk s2 w r) :: evs)
      = countResolutions s evs + (if s2 = s then 1 else 0) := by
  by_cases hc : c ≠ 0 <;> by_cases hs : s2 = s <;>
    simp [hc, hs, countResolutions, List.countP_cons]

/-- an id absent from the waiter table is never resolved by the loop. -/
theorem countRes_of_absent (unpack : List Nat → Nat) (decode : List Nat → Resp)
    (s : Nat) (tbl : Tbl) (buf : List Nat) (habs : tlookup s tbl = none) :
    countResolutions s (readerLoop unpack decode tbl buf).events = 0 := by
  by_cases h5 : 5 ≤ buf.length
  · by_cases hfit : buf.length < 5 + unpack (buf.take 5)
    · rw [readerLoop_wait unpack decode tbl buf h5 hfit]
      rfl
    · cases hhit : tlookup (decode ((buf.drop 5).take (unpack (buf.take 5)))).sync tbl with
      | none =>
          rw [readerLoop_step_none unpack decode tbl buf h5 hfit hhit,
              countRes_cons_discarded]
          exact countRes_of_absent unpack decode s tbl
            (buf.drop (5 + unpack (buf.take 5))) habs
      | some w =>
          have hne : (decode ((buf.drop 5).take (unpack (buf.take 5)))).sync ≠ s := by
            intro he
            rw [he, habs] at hhit
            exact Option.noConfusion hhit
          rw [readerLoop_step_some unpack decode tbl buf w h5 hfit hhit,
              countRes_cons_ite, if_neg hne,
              countRes_of_absent unpack decode s
                (terase (decode ((buf.drop 5).take (unpack (buf.take 5)))).sync tbl)
                (buf.drop (5 + unpack (buf.take 5)))
                (tlookup_terase_none _ habs)]
  · rw [readerLoop_short unpack decode tbl buf h5]
    rfl
termination_by buf.length
decreasing_by
  all_goals simp only [List.length_drop]; omega

/-- each correlation id is resolved at most once over a whole reader run: the
entry is deleted at resolution time and the loop never re-adds entries. -/
theorem countRes_le_one (unpack : List Nat → Nat) (decode : List Nat → Resp)
    (tbl : Tbl) (buf : List Nat) (s : Nat) :
    countResolutions s (readerLoop unpack decode tbl buf).events ≤ 1 := by
  by_cases h5 : 5 ≤ buf.length
  · by_cases hfit : buf.length < 5 + unpack (buf.take 5)
    · rw [readerLoop_wait unpack decode tbl buf h5 hfit]
      simp [countResolutions]
    · cases hhit : tlookup (decode ((buf.drop 5).take (unpack (buf.take 5)))).sync tbl with
      | none =>
          rw [readerLoop_step_none unpack decode tbl buf h5 hfit hhit,
              countRes_cons_discarded]
          exact countRes_le_one unpack decode tbl (buf.drop (5 + unpack (buf.take 5))) s
      | some w =>
          rw [readerLoop_step_some unpack decode tbl buf w h5 hfit hhit,
              countRes_cons_ite]
          by_cases hs : (decode ((buf.drop 5).take (unpack (buf.take 5)))).sync = s
          · rw [if_pos hs,
                countRes_of_absent unpack decode s
                  (terase (decode ((buf.drop 5).take (unpack (buf.take 5)))).sync tbl)
                  (buf.drop (5 + unpack (buf.take 5)))
                  (by rw [hs]; exact tlookup_terase_self s tbl)]
          · rw [if_neg hs]
            have ih := countRes_le_one unpack decode
              (terase (decode ((buf.drop 5).take (unpack (buf.take 5)))).sync tbl)
              (buf.drop (5 + unpack (buf.take 5))) s
            omega
  · rw [readerLoop_short unpack decode tbl buf h5]
    simp [countResolutions]
termination_by buf.length
decreasing_by
  all_goals simp only [List.length_drop]; omega

/-- a reader run only ever resolves slot tokens that were in the table it
started from. -/
theorem readerLoop_slot_mem (unpack : List Nat → Nat) (decode : List Nat → Resp)
    (tbl : Tbl) (buf : List Nat) (ev : RdEv) (x : Nat)
    (hev : ev ∈ (readerLoop unpack decode tbl buf).events)
    (hslot : slotOf ev = some x) : x ∈ tvals tbl := by
  by_cases h5 : 5 ≤ buf.length
  · by_cases hfit : buf.length < 5 + unpack (buf.take 5)
    · rw [readerLoop_wait unpack decode tbl buf h5 hfit] at hev
      simp at hev
    · cases hhit : tlookup (decode ((buf.drop 5).take (unpack (buf.take 5)))).sync tbl with
      | none =>
          rw [readerLoop_step_none unpack decode tbl buf h5 hfit hhit] at hev
          rcases List.mem_cons.1 hev with h1 | h1
          · rw [h1] at hslot
            exact Option.noConfusion hslot
          · exact readerLoop_slot_mem unpack decode tbl
              (buf.drop (5 + unpack (buf.take 5))) ev x h1 hslot
      | some w =>
          rw [readerLoop_step_some unpack decode tbl buf w h5 hfit hhit] at hev
          rcases List.mem_cons.1 hev with h1 | h1
          · have hxw : x = w := by
              by_cases hc : (decode ((buf.drop 5).take (unpack (buf.take 5)))).return_code ≠ 0 <;>
                · rw [h1] at hslot
                  simp [hc, slotOf] at hslot
                  exact hslot.symm
            rw [hxw]
            exact tlookup_mem_tvals hhit
          · exact tvals_terase_subset _
              (readerLoop_slot_mem unpack decode
                (terase (decode ((buf.drop 5).take (unpack (buf.take 5)))).sync tbl)
                (buf.drop (5 + unpack (buf.take 5))) ev x h1 hslot)
  · rw [readerLoop_short unpack decode tbl buf h5] at hev
    simp at hev
termination_by buf.length
decreasing_by
  all_goals simp only [List.length_drop]; omega

/-- Claim C2: a frame payload is handed to the Response decoder only when the
buffer holds the full declared length after the 5-byte prefix — every handed
payload has exactly its declared length — and a buffer with fewer than 5 bytes,
or fewer than 5 plus the declared length, is kept unconsumed with nothing
handed to the decoder. -/
theorem readerLoop_no_partial_frame (unpack : List Nat → Nat) (decode : List Nat → Resp)
    (tbl : Tbl) (buf : List Nat) :
    (∀ q ∈ (readerLoop unpack decode tbl buf).handed, q.2.length = q.1)
    ∧ (5 ≤ buf.length → buf.length < 5 + unpack (buf.take 5) →
        (readerLoop unpack decode tbl buf).handed = []
          ∧ (readerLoop unpack decode tbl buf).leftover = buf)
    ∧ (buf.length < 5 →
        (readerLoop unpack decode tbl buf).handed = []
          ∧ (readerLoop unpack decode tbl buf).leftover = buf) := by
  refine ⟨readerLoop_handed_full unpack decode tbl buf, ?_, ?_⟩
  · intro h5 hfit
    rw [readerLoop_wait unpack decode tbl buf h5 hfit]
    exact ⟨rfl, rfl⟩
  · intro hlt
    rw [readerLoop_short unpack decode tbl buf (by omega)]
    exact ⟨rfl, rfl⟩

/-- witness for the claim C2 theorem: a frame declaring 3 payload bytes while
only 2 are buffered is not handed over and the buffer is kept. -/
theorem readerLoop_no_partial_frame_witness :
    (readerLoop unpackU32 decodeSimple [] [206, 0, 0, 0, 3, 1, 0]).handed = []
    ∧ (readerLoop unpackU32 decodeSimple [] [206, 0, 0, 0, 3, 1, 0]).leftover
        = [206, 0, 0, 0, 3, 1, 0] :=
  (readerLoop_no_partial_frame unpackU32 decodeSimple [] [206, 0, 0, 0, 3, 1, 0]).2.1
    (by decide) (by decide)

/-- Claim C4: a decoded complete frame carrying a correlation id with no entry
in the waiter table is logged and discarded, and the loop continues over the
rest of the same buffer with the table unchanged and nothing raised: the run
equals the discard event followed by the run on the remaining bytes, whose
resolution counts it shares. -/
theorem readerLoop_unknown_sync_discarded (unpack : List Nat → Nat)
    (decode : List Nat → Resp) (tbl : Tbl) (buf : List Nat) (r : Resp) (L : Nat)
    (hL : unpack (buf.take 5) = L) (hr : decode ((buf.drop 5).take L) = r)
    (h5 : 5 ≤ buf.length) (hfit : ¬ buf.length < 5 + L)
    (hmiss : tlookup r.sync tbl = none) :
    readerLoop unpack decode tbl buf
      = { readerLoop unpack decode tbl (buf.drop (5 + L)) with
          events := RdEv.discarded r.sync
            :: (readerLoop unpack decode tbl (buf.drop (5 + L))).events
        , handed := (L, (buf.drop 5).take L)
            :: (readerLoop unpack decode tbl (buf.drop (5 + L))).handed }
    ∧ ∀ s2, countResolutions s2 (readerLoop unpack decode tbl buf).events
        = countResolutions s2 (readerLoop unpack decode tbl (buf.drop (5 + L))).events := by
  subst hL
  subst hr
  have h := readerLoop_step_none unpack decode tbl buf h5 hfit hmiss
  refine ⟨h, fun s2 => ?_⟩
  rw [h, countRes_cons_discarded]

/-- witness for the claim C4 theorem: a frame for unknown id 42 is discarded
while the single waiter entry survives untouched. -/
theorem readerLoop_unknown_sync_witness :
    (readerLoop unpackU32 decodeSimple [(1, 7)] [206, 0, 0, 0, 1, 42]).events
      = [RdEv.discarded 42]
    ∧ (readerLoop unpackU32 decodeSimple [(1, 7)] [206, 0, 0, 0, 1, 42]).tbl = [(1, 7)] := by
  have h := (readerLoop_unknown_sync_discarded unpackU32 decodeSimple [(1, 7)]
      [206, 0, 0, 0, 1, 42] (decodeSimple [42]) 1 (by decide) (by decide) (by decide)
      (by decide) (by decide)).1
  rw [h, readerLoop_short unpackU32 decodeSimple [(1, 7)]
      (List.drop (5 + 1) [206, 0, 0, 0, 1, 42]) (by decide)]
  exact ⟨rfl, rfl⟩

/-- Claim C5: a complete frame whose correlation id has waiter slot w resolves
exactly that waiter — a database-error outcome carrying the return code and
message when the code is nonzero, the success payload when it is zero — the
table entry is deleted immediately, before any later frame is handled, and
over any whole reader run each correlation id is resolved at most once. -/
theorem readerLoop_matched_resolves_once (unpack : List Nat → Nat)
    (decode : List Nat → Resp) (tbl : Tbl) (buf : List Nat) (r : Resp) (L w : Nat)
    (hL : unpack (buf.take 5) = L) (hr : decode ((buf.drop 5).take L) = r)
    (h5 : 5 ≤ buf.length) (hfit : ¬ buf.length < 5 + L)
    (hhit : tlookup r.sync tbl = some w) :
    (readerLoop unpack decode tbl buf).events
      = (if r.return_code ≠ 0
         then RdEv.resolvedErr r.sync w r.return_code r.return_message
         else RdEv.resolvedOk r.sync w r)
        :: (readerLoop unpack decode (terase r.sync tbl) (buf.drop (5 + L))).events
    ∧ (readerLoop unpack decode tbl buf).tbl
      = (readerLoop unpack decode (terase r.sync tbl) (buf.drop (5 + L))).tbl
    ∧ tlookup r.sync (terase r.sync tbl) = none
    ∧ ∀ (tbl2 : Tbl) (buf2 : List Nat) (s : Nat),
        countResolutions s (readerLoop unpack decode tbl2 buf2).events ≤ 1 := by
  subst hL
  subst hr
  have h := readerLoop_step_some unpack decode tbl buf w h5 hfit hhit
  refine ⟨?_, ?_, tlookup_terase_self _ tbl,
    fun tbl2 buf2 s => countRes_le_one unpack decode tbl2 buf2 s⟩
  · rw [h]
  · rw [h]

/-- witness for the claim C5 theorem: a frame for id 3 with return code 1
resolves slot 9 with the database-error outcome, exactly once. -/
theorem readerLoop_matched_resolves_witness :
    (readerLoop unpackU32 decodeSimple [(3, 9)] [206, 0, 0, 0, 2, 3, 1]).events
      = [RdEv.resolvedErr 3 9 1 "err"]
    ∧ countResolutions 3
        (readerLoop unpackU32 decodeSimple [(3, 9)] [206, 0, 0, 0, 2, 3, 1]).events ≤ 1 := by
  have h := readerLoop_matched_resolves_once unpackU32 decodeSimple [(3, 9)]
      [206, 0, 0, 0, 2, 3, 1] (decodeSimple [3, 1]) 2 9 (by decide) (by decide)
      (by decide) (by decide) (by decide)
  constructor
  · rw [h.1, readerLoop_short unpackU32 decodeSimple
        (terase (decodeSimple [3, 1]).sync [(3, 9)])
        (List.drop (5 + 2) [206, 0, 0, 0, 2, 3, 1]) (by decide)]
    decide
  · exact h.2.2.2 [(3, 9)] [206, 0, 0, 0, 2, 3, 1] 3

/-- the attempt loop enqueues the request bytes once per executed attempt:
the enqueue count equals the re-registration count plus one, capped by the
remaining attempt budget. -/
theorem sendAttempts_enqueue_counts (sync : Nat) :
    ∀ (n : Nat) (last0 : Option Resp) (script : List Resp),
      countEnqueue (sendAttempts sync last0 n script).1
        = min n (countReregister (sendAttempts sync last0 n script).1 + 1) := by
  intro n
  induction n with
  | zero =>
      intro last0 script
      simp [sendAttempts, countEnqueue, countReregister]
  | succ n ih =>
      intro last0 script
      cases script with
      | nil => simp [sendAttempts, countEnqueue, countReregister]
      | cons r rest =>
          by_cases h1 : r.completion_status ≠ 1
          · simp [sendAttempts, if_pos h1, countEnqueue, countReregister]
          · have ih2 := ih (some r) rest
            simp only [sendAttempts, if_neg h1, countEnqueue, countReregister,
              List.countP_cons] at ih2 ⊢
            simp at ih2 ⊢
            omega

/-- every re-registration in the attempt loop is under the dispatched id. -/
theorem sendAttempts_reregister_sync (sync m : Nat) :
    ∀ (n : Nat) (last0 : Option Resp) (script : List Resp),
      DEv.reregister m ∈ (sendAttempts sync last0 n script).1 → m = sync := by
  intro n
  induction n with
  | zero =>
      intro last0 script h
      simp [sendAttempts] at h
  | succ n ih =>
      intro last0 script h
      cases script with
      | nil => simp [sendAttempts] at h
      | cons r rest =>
          by_cases h1 : r.completion_status ≠ 1
          · simp [sendAttempts, if_pos h1] at h
          · simp only [sendAttempts, if_neg h1, List.mem_cons] at h
            rcases h with h | h | h | h
            · exact absurd h (by simp)
            · injection h
            · exact absurd h (by simp)
            · exact ih (some r) rest h

/-- Claim C1 as stated is false: a dispatch whose first resolution reports
retry-needed and whose second is final appends the request bytes to the
outbound buffer twice, not exactly once. -/
theorem dispatch_enqueue_counterexample :
    (dispatch st0 [respRetry, respFinal]).2.2.2 = SendResult.ok respFinal
    ∧ countEnqueue (dispatch st0 [respRetry, respFinal]).2.2.1 = 2
    ∧ ¬ countEnqueue (dispatch st0 [respRetry, respFinal]).2.2.1 = 1 := by
  decide

/-- Claim C1 (amended): on a retry-needed resolution the dispatcher does
re-register a fresh slot under the same correlation id and await again, but
the request bytes are also appended to the outbound buffer again on every
attempt: over a whole dispatch the bytes are enqueued once per executed
attempt — one more than the number of re-registrations, capped by the attempt
budget — rather than exactly once. -/
theorem dispatch_enqueues_once_per_attempt (st : ConnState) (script : List Resp) :
    countEnqueue (dispatch st script).2.2.1
      = min RETRY_MAX_ATTEMPTS (countReregister (dispatch st script).2.2.1 + 1)
    ∧ ∀ m, DEv.reregister m ∈ (dispatch st script).2.2.1 → m = (dispatch st script).2.1 := by
  constructor
  · have h := sendAttempts_enqueue_counts (generate_sync st).2 RETRY_MAX_ATTEMPTS none script
    simpa [dispatch, send_request, countEnqueue, countReregister, List.countP_cons] using h
  · intro m hm
    have hm2 : DEv.reregister m ∈ (send_request (generate_sync st).2 script).1 := by
      simpa [dispatch] using hm
    exact sendAttempts_reregister_sync (generate_sync st).2 m RETRY_MAX_ATTEMPTS none
      script hm2

/-- witness for the amended claim C1 theorem at a concrete two-resolution
dispatch. -/
theorem dispatch_enqueues_once_per_attempt_witness :
    countEnqueue (dispatch st0 [respRetry, respFinal]).2.2.1
      = min RETRY_MAX_ATTEMPTS
          (countReregister (dispatch st0 [respRetry, respFinal]).2.2.1 + 1)
    ∧ (1 : Nat) = (dispatch st0 [respRetry, respFinal]).2.1 :=
  ⟨(dispatch_enqueues_once_per_attempt st0 [respRetry, respFinal]).1,
   (dispatch_enqueues_once_per_attempt st0 [respRetry, respFinal]).2 1 (by decide)⟩

/-- a run whose first attempts all report retry-needed and exhaust the budget
ends with DatabaseError carrying the last of those responses. -/
theorem sendAttempts_exhaust (sync : Nat) (pre : List Resp) :
    ∀ (rest : List Resp) (last0 : Option Resp) (lr : Resp),
      pre.getLast? = some lr →
      (∀ r ∈ pre, r.completion_status = 1) →
      (sendAttempts sync last0 pre.length (pre ++ rest)).2
        = SendResult.dbError lr.return_code lr.return_message := by
  induction pre with
  | nil =>
      intro rest last0 lr h
      simp at h
  | cons r pre2 ih =>
      intro rest last0 lr hlast hall
      have h1 : r.completion_status = 1 := hall r (List.mem_cons_self _ _)
      cases pre2 with
      | nil =>
          simp only [List.getLast?_singleton, Option.some.injEq] at hlast
          simp [sendAttempts, h1, ← hlast]
      | cons r2 pre3 =>
          rw [List.getLast?_cons_cons] at hlast
          have hstep :
              (sendAttempts sync last0 ((r :: r2 :: pre3).length) ((r :: r2 :: pre3) ++ rest)).2
                = (sendAttempts sync (some r) ((r2 :: pre3).length) ((r2 :: pre3) ++ rest)).2 := by
            simp [sendAttempts, h1]
          rw [hstep]
          exact ih rest (some r) lr hlast (fun x hx => hall x (List.mem_cons_of_mem _ hx))

/-- Claim C7: when all RETRY_MAX_ATTEMPTS resolutions of a dispatched request
report retry-needed, the call raises DatabaseError carrying the return code
and message of the last response received; a resolution whose completion
status is final is returned immediately, with no further attempt. -/
theorem send_request_exhaust_or_final (sync : Nat) :
    (∀ (pre rest : List Resp) (lr : Resp),
        pre.length = RETRY_MAX_ATTEMPTS →
        pre.getLast? = some lr →
        (∀ r ∈ pre, r.completion_status = 1) →
        (send_request sync (pre ++ rest)).2
          = SendResult.dbError lr.return_code lr.return_message)
    ∧ (∀ (r : Resp) (rest : List Resp),
        r.completion_status ≠ 1 →
        send_request sync (r :: rest) = ([DEv.enqueue sync], SendResult.ok r)) := by
  constructor
  · intro pre rest lr hlen hlast hall
    rw [send_request, ← hlen]
    exact sendAttempts_exhaust sync pre rest none lr hlast hall
  · intro r rest hfin
    rw [send_request]
    simp [RETRY_MAX_ATTEMPTS, sendAttempts, hfin]

/-- witness for the claim C7 theorem: ten retry-needed resolutions end in
DatabaseError 5, while an immediately-final resolution is returned at once. -/
theorem send_request_exhaust_witness :
    (send_request 1 (List.replicate 10 respRetry)).2
      = SendResult.dbError 5 "try again"
    ∧ send_request 1 [respFinal] = ([DEv.enqueue 1], SendResult.ok respFinal) := by
  constructor
  · have h := (send_request_exhaust_or_final 1).1 (List.replicate 10 respRetry) []
      respRetry (by decide) (by decide) (by decide)
    simpa using h
  · exact (send_request_exhaust_or_final 1).2 respFinal [] (by decide)

/-- Claim C9: for every dispatched logical operation the fresh pending slot is
registered under the freshly allocated correlation id strictly before the
encoded bytes are appended to the outbound buffer: the dispatch trace opens
with the registration event and every enqueue event for that id sits at a
strictly later position. -/
theorem dispatch_register_precedes_enqueue (st : ConnState) (script : List Resp) :
    (dispatch st script).2.2.1.head? = some (DEv.register (dispatch st script).2.1)
    ∧ ∀ j (hj : j < (dispatch st script).2.2.1.length),
        (dispatch st script).2.2.1.get ⟨j, hj⟩ = DEv.enqueue (dispatch st script).2.1 →
        ∃ i, i < j ∧ ∃ hi : i < (dispatch st script).2.2.1.length,
          (dispatch st script).2.2.1.get ⟨i, hi⟩ = DEv.register (dispatch st script).2.1 := by
  constructor
  · rfl
  · intro j hj hget
    have hj0 : j ≠ 0 := by
      intro h0
      subst h0
      rw [show (dispatch st script).2.2.1.get ⟨0, hj⟩
            = DEv.register (dispatch st script).2.1 from rfl] at hget
      exact DEv.noConfusion hget
    exact ⟨0, Nat.pos_of_ne_zero hj0, by omega, rfl⟩

/-- witness for the claim C9 theorem: in the concrete one-shot dispatch trace
the enqueue at position 1 is preceded by the registration at position 0. -/
theorem dispatch_register_precedes_enqueue_witness :
    ∃ i, i < 1 ∧ ∃ hi : i < (dispatch st0 [respFinal]).2.2.1.length,
      (dispatch st0 [respFinal]).2.2.1.get ⟨i, hi⟩
        = DEv.register (dispatch st0 [respFinal]).2.1 :=
  (dispatch_register_precedes_enqueue st0 [respFinal]).2 1 (by decide) (by decide)

/-- cancellation events of a voluntary close count slots with multiplicity. -/
theorem countCloseFor_map_cancel (w : Nat) (l : Tbl) :
    countCloseFor w (l.map (fun p => CloseEv.cancelled p.2)) = (tvals l).count w := by
  induction l with
  | nil => rfl
  | cons p rest ih =>
      by_cases hw : p.2 = w <;>
        simp [countCloseFor, List.countP_cons, tvals, List.count_cons, hw] at ih ⊢ <;>
        omega

/-- error events of a fault close count slots with multiplicity. -/
theorem countCloseFor_map_exc (w : Nat) (e : PyErr) (l : Tbl) :
    countCloseFor w (l.map (fun p => CloseEv.excepted p.2 e)) = (tvals l).count w := by
  induction l with
  | nil => rfl
  | cons p rest ih =>
      by_cases hw : p.2 = w <;>
        simp [countCloseFor, List.countP_cons, tvals, List.count_cons, hw] at ih ⊢ <;>
        omega

/-- Claim C3: closing a connected instance marks it disconnected, empties the
waiter table, and resolves each still-pending slot exactly once — by
cancellation on a voluntary close (no triggering error), or with the
triggering error on a fault-induced close — while closing an
already-disconnected instance is a no-op. -/
theorem do_close_spec (st : ConnState) (exc : Option PyErr) :
    (st.connected = false → _do_close exc st = (st, []))
    ∧ (st.connected = true →
        (_do_close exc st).1.connected = false
        ∧ (_do_close exc st).1.waiters = []
        ∧ (∀ w, countCloseFor w (_do_close exc st).2 = (tvals st.waiters).count w)
        ∧ (exc = none →
            ∀ e ∈ (_do_close exc st).2, ∃ w, e = CloseEv.cancelled w)
        ∧ (∀ pe, exc = some pe →
            ∀ e ∈ (_do_close exc st).2, ∃ w, e = CloseEv.excepted w pe)) := by
  constructor
  · intro h
    rw [_do_close, if_pos h]
  · intro hconn
    have hcond : ¬ st.connected = false := by rw [hconn]; simp
    refine ⟨?_, ?_, ?_, ?_, ?_⟩
    · rw [_do_close, if_neg hcond]
    · rw [_do_close, if_neg hcond]
    · intro w
      rw [_do_close, if_neg hcond]
      cases exc with
      | none => exact countCloseFor_map_cancel w st.waiters
      | some e => exact countCloseFor_map_exc w e st.waiters
    · rintro rfl e he
      rw [_do_close, if_neg hcond] at he
      simp only [List.mem_map] at he
      obtain ⟨p, _, hfe⟩ := he
      exact ⟨p.2, hfe.symm⟩
    · rintro pe rfl e he
      rw [_do_close, if_neg hcond] at he
      simp only [List.mem_map] at he
      obtain ⟨p, _, hfe⟩ := he
      exact ⟨p.2, hfe.symm⟩

/-- witness for the claim C3 theorem at a concrete connected state with two
pending slots, closed voluntarily. -/
theorem do_close_spec_witness :
    (_do_close none stClose).1.connected = false
    ∧ (_do_close none stClose).1.waiters = []
    ∧ countCloseFor 7 (_do_close none stClose).2 = (tvals stClose.waiters).count 7 := by
  have h := (do_close_spec stClose none).2 (by decide)
  exact ⟨h.1, h.2.1, h.2.2.1 7⟩

/-- Claim C8 (code bug in the more-than-one-row branch): on a cache miss, zero
returned rows raise the space-not-found SchemaError, exactly one row
constructs, caches and returns the descriptor, but two rows raise TypeError —
the SchemaError message is built by string + list concatenation, which Python
rejects — instead of the intended schema-inconsistency SchemaError. -/
theorem get_space_miss_row_cases :
    get_space_miss (SpaceKey.byName "users") [] []
      = Except.error (PyExc.schemaError "There is no space with name")
    ∧ get_space_miss (SpaceKey.byName "users") [] [rowUsers]
      = Except.ok ({ sid := 512, name := "users", indexes := [] },
          [(SpaceKey.byId 512, { sid := 512, name := "users", indexes := [] }),
           (SpaceKey.byName "users", { sid := 512, name := "users", indexes := [] })])
    ∧ get_space_miss (SpaceKey.byName "users") [] [rowUsers, rowUsers]
      = Except.error PyExc.typeError :=
  ⟨rfl, rfl, rfl⟩

/-- Claim C10: when the freshly allocated correlation id already holds a
pending slot (wraparound reuse), generate_sync silently replaces it: the id
ends up mapped to the new fresh slot token, the old token leaves the table
entirely, and no reader-loop run over the new table can ever resolve it.
The hypotheses state that table tokens are drawn from below the fresh-token
supply and are pairwise distinct, as holds for distinct Future objects. -/
theorem generate_sync_collision_replaces (st : ConnState) (w : Nat)
    (hw : tlookup (generate_sync st).2 st.waiters = some w)
    (hfresh : ∀ p ∈ st.waiters, p.2 < st.next_token)
    (hnd : (tvals st.waiters).Nodup) :
    tlookup (generate_sync st).2 (generate_sync st).1.waiters = some st.next_token
    ∧ st.next_token ≠ w
    ∧ w ∉ tvals (generate_sync st).1.waiters
    ∧ ∀ (unpack : List Nat → Nat) (decode : List Nat → Resp) (buf : List Nat) (ev : RdEv),
        ev ∈ (readerLoop unpack decode (generate_sync st).1.waiters buf).events →
        slotOf ev ≠ some w := by
  have hlt : w < st.next_token := hfresh _ (tlookup_mem hw)
  have hne : st.next_token ≠ w := by omega
  have hnot : w ∉ tvals (generate_sync st).1.waiters := by
    show w ∉ tvals (tinsert (generate_sync st).2 st.next_token st.waiters)
    rw [tinsert]
    intro hmem
    rcases List.mem_cons.1 hmem with h1 | h1
    · exact hne (by rw [show w = st.next_token from h1])
    · exact not_mem_tvals_terase hw hnd h1
  refine ⟨tlookup_tinsert_self _ _ _, hne, hnot, ?_⟩
  intro unpack decode buf ev hev hslot
  exact hnot (readerLoop_slot_mem unpack decode _ buf ev w hev hslot)

/-- witness for the claim C10 theorem: with the counter at the ceiling the next
id wraps to 0, whose stale slot token 5 is replaced by fresh token 6; the
reader then resolves only the fresh slot. -/
theorem generate_sync_collision_witness :
    tlookup (generate_sync stWrap).2 (generate_sync stWrap).1.waiters = some 6
    ∧ (6 : Nat) ≠ 5
    ∧ slotOf (RdEv.resolvedOk 0 6 (decodeSimple [0])) ≠ some 5 := by
  have h := generate_sync_collision_replaces stWrap 5 (by decide) (by decide) (by decide)
  refine ⟨h.1, h.2.1, ?_⟩
  apply h.2.2.2 unpackU32 decodeSimple [206, 0, 0, 0, 1, 0]
  have hstep := (readerLoop_matched_resolves_once unpackU32 decodeSimple
      (generate_sync stWrap).1.waiters [206, 0, 0, 0, 1, 0] (decodeSimple [0]) 1 6
      (by decide) (by decide) (by decide) (by decide) (by decide)).1
  rw [hstep, readerLoop_short unpackU32 decodeSimple
      (terase (decodeSimple [0]).sync (generate_sync stWrap).1.waiters)
      (List.drop (5 + 1) [206, 0, 0, 0, 1, 0]) (by decide)]
  simp [decodeSimple]

end Aiotarantool
